import Mathlib

/-
Shallow embedding of generate_weekmenu.py (bertcarremans/weekmenu).

Dates are modelled as integers counting days since 1970-01-01 (a Thursday),
so date arithmetic with timedelta(days = n) becomes integer addition and
strftime with the %A format becomes a table lookup on the residue mod 7.
Pandas NaT and NaN cells become Option values. The two random draws of
numpy (np.random.choice on an index array) are modelled by an externally
supplied stream of natural numbers, reduced modulo the size of the
candidate array; a draw from an empty array raises in numpy and is
modelled as a failing Option. Calls to the Google Sheets and Calendar
write endpoints are modelled as emitted actions.
-/

namespace Weekmenu

/-- One row of the recipes spreadsheet, as parsed by get_recipes:
columns recipe, description, difficulty, last_date_on_menu, indexed by
row_number. A blank or unparseable last_date_on_menu cell becomes NaT,
modelled here as none. -/
structure RecipeRow where
  row_number : Nat
  recipe : String
  description : String
  difficulty : String
  last_date_on_menu : Option Int
  deriving Repr, DecidableEq

/-- One row of the events DataFrame built by create_events_df: the date
index, the derived weekday column, and the two (nullable) event-label
columns coming from the two source calendars. -/
structure DayRow where
  date : Int
  weekday : String
  events_cal_1 : Option String
  events_cal_2 : Option String
  deriving Repr, DecidableEq

/-- One row of the weekmenu DataFrame after generate_weekmenu has filled
in the recipe and description columns. rowNumber records, for a slot
filled from the pool, the row_number returned by choose_recipe; a
tradition slot has none. -/
structure MenuSlot where
  date : Int
  weekday : String
  recipe : String
  description : String
  rowNumber : Option Nat
  deriving Repr, DecidableEq

/-- The body of an event inserted by add_weekmenu_to_calendar: summary,
description and the start and end dates of the all-day event. -/
structure CalEvent where
  summary : String
  description : String
  startDate : Int
  endDate : Int
  deriving Repr, DecidableEq

/-- An external write performed by the script: a Sheets values().update of
the last_date_on_menu cell of one row, or a Calendar events().insert. -/
inductive Action where
  | sheetUpdate : Nat → Int → Action
  | insertEvent : CalEvent → Action
  deriving Repr, DecidableEq

/-- The full weekday name of a date, as produced by strftime with the %A
format. Day 0 of the epoch is a Thursday. -/
def weekdayName (d : Int) : String :=
  [ "Thursday", "Friday", "Saturday", "Sunday", "Monday", "Tuesday", "Wednesday"
  ].getD (d % 7).toNat ""

/-- unfold_events_list, source lines 48 to 75. Each raw event is a tuple
of start date, end date and upper-cased label. An event whose span
end - start exceeds one day is split into one entry per day of
range(delta_days), each kept only when it falls between
datetime.now().date() and that date plus six days; the parameter today
stands for datetime.now().date(). Any other event contributes its start
date unconditionally. -/
def unfold_events_list (today : Int) (events : List (Int × Int × String)) :
    List (Int × String) :=
  events.bind (fun e =>
    let start := e.1
    let stop := e.2.1
    let delta := stop - start
    if delta > 1 then
      (List.range delta.toNat).filterMap (fun (off : Nat) =>
        let unfolded : Int := start + (off : Int)
        if today ≤ unfolded ∧ unfolded ≤ today + 6 then some (unfolded, e.2.2) else none)
    else
      [(start, e.2.2)])

/-- First matching label for a date in a per-day event list; the value a
pandas outer merge followed by a reindex places in the cell, none when
the date is absent. -/
def lookupDate (xs : List (Int × String)) (d : Int) : Option String :=
  (xs.find? (fun p => p.1 == d)).map (fun p => p.2)

/-- create_events_df, source lines 129 to 160: outer-merges the two
per-day lists on date, then reindexes onto the seven dates from START_DAY
to START_DAY plus six and derives the weekday column. Pandas raises on
reindexing a frame whose date index holds duplicates, which happens
exactly when either input list repeats a date; that error path is
modelled as none. -/
def create_events_df (start_day : Int) (l1 l2 : List (Int × String)) :
    Option (List DayRow) :=
  if (l1.map (fun p => p.1)).Nodup ∧ (l2.map (fun p => p.1)).Nodup then
    some ((List.range 7).map (fun (i : Nat) =>
      { date := start_day + (i : Int)
        weekday := weekdayName (start_day + (i : Int))
        events_cal_1 := lookupDate l1 (start_day + (i : Int))
        events_cal_2 := lookupDate l2 (start_day + (i : Int)) }))
  else none

/-- get_recipes, source lines 193 to 218: keeps the full recipes frame
and the eligible view, the rows whose last_date_on_menu is strictly
before PREV_WEEK or is NaT. In pandas a NaT cell compares false under
the strict inequality and is caught by the isnat disjunct. -/
def get_recipes (prev_week : Int) (rows : List RecipeRow) :
    List RecipeRow × List RecipeRow :=
  (rows, rows.filter (fun r =>
    match r.last_date_on_menu with
    | some d => decide (d < prev_week)
    | none => true))

/-- Comparison used by sort_values on last_date_on_menu with na_position
set to first: NaT sorts before every date, dates sort ascending. -/
def laLe (a b : Option Int) : Bool :=
  match a, b with
  | none, _ => true
  | some _, none => false
  | some x, some y => decide (x ≤ y)

/-- The candidate index array built inside choose_recipe, source line
239: the eligible frame restricted by the query string, which names the
literal difficulty value difficult and ignores the difficulty parameter,
sorted ascending on last_date_on_menu with NaT first, truncated to the
first five rows. The numpy quicksort behind sort_values is not stable,
so the order among equal keys is unspecified; the model fixes one
concrete reordering by laLe, an insertion sort. -/
def choose_candidates (difficulty : String) (eligible : List RecipeRow) :
    List RecipeRow :=
  ((eligible.filter (fun r => r.difficulty == "difficult")).insertionSort
    (fun a b => laLe a.last_date_on_menu b.last_date_on_menu = true)).take 5

/-- choose_recipe, source lines 220 to 243: draws one row uniformly from
the candidate array (the draw index k is reduced modulo the array
length; numpy raises on an empty array, modelled as none), records the
chosen recipe and description for the menu slot, and drops the chosen
row label from the eligible frame in place. Returns the chosen row
together with the eligible frame after the drop. -/
def choose_recipe (difficulty : String) (k : Nat) (eligible : List RecipeRow) :
    Option (RecipeRow × List RecipeRow) :=
  let cands := choose_candidates difficulty eligible
  match cands.get? (k % cands.length) with
  | none => none
  | some chosen =>
      some (chosen, eligible.filter (fun r => !(r.row_number == chosen.row_number)))

/-- Lookup of a weekday in the traditions dict: some recipe name when the
weekday is one of its keys. -/
def lookupTradition (traditions : List (String × String)) (weekday : String) :
    Option String :=
  (traditions.find? (fun p => p.1 == weekday)).map (fun p => p.2)

/-- Membership test of a nullable event cell in the free_events list; a
NaN cell is never contained in a list of strings. -/
def cellInFree (free_events : List String) : Option String → Bool
  | some l => free_events.contains l
  | none => false

/-- The pd.isnull test on a nullable event cell. -/
def cellIsNull : Option String → Bool
  | some _ => false
  | none => true

/-- The difficulty string generate_weekmenu passes to choose_recipe for a
non-tradition day, source lines 294 to 303: difficult on Saturday and
Sunday, medium when either event cell is a free event or either is null,
easy otherwise. -/
def requestedTier (free_events : List String) (r : DayRow) : String :=
  if r.weekday == "Saturday" || r.weekday == "Sunday" then "difficult"
  else if cellInFree free_events r.events_cal_1 || cellInFree free_events r.events_cal_2
      || cellIsNull r.events_cal_1 || cellIsNull r.events_cal_2 then "medium"
  else "easy"

/-- generate_weekmenu, source lines 267 to 304: walks the event rows in
order. A weekday found in the traditions dict gets the tradition recipe
with an empty description and touches neither the eligible frame nor the
sheet. Any other day draws via choose_recipe with the tier of
requestedTier, consuming one element of the random stream ks, and
immediately emits the update_sheet write of the slot date into the row
of the chosen recipe. Returns the filled menu, the eligible frame left
after all draws, and the sheet updates in emission order; none models
the run aborting (an empty candidate array, or an exhausted stream). -/
def generate_weekmenu (traditions : List (String × String))
    (free_events : List String) (ks : List Nat) (rows : List DayRow)
    (eligible : List RecipeRow) :
    Option (List MenuSlot × List RecipeRow × List (Nat × Int)) :=
  match rows with
  | [] => some ([], eligible, [])
  | r :: rest =>
    match lookupTradition traditions r.weekday with
    | some name =>
        (generate_weekmenu traditions free_events ks rest eligible).map
          (fun out =>
            ({ date := r.date, weekday := r.weekday, recipe := name,
               description := "", rowNumber := none } :: out.1, out.2.1, out.2.2))
    | none =>
        match ks with
        | [] => none
        | k :: ks' =>
          match choose_recipe (requestedTier free_events r) k eligible with
          | none => none
          | some (chosen, eligible') =>
              (generate_weekmenu traditions free_events ks' rest eligible').map
                (fun out =>
                  ({ date := r.date, weekday := r.weekday, recipe := chosen.recipe,
                     description := chosen.description,
                     rowNumber := some chosen.row_number } :: out.1,
                   out.2.1, (chosen.row_number, r.date) :: out.2.2))

/-- add_weekmenu_to_calendar, source lines 162 to 187: inserts, for every
row of the weekmenu frame, one event whose summary is the recipe, whose
description is the description, and whose start and end dates are both
the ISO form of the row index date. -/
def add_weekmenu_to_calendar (menu : List MenuSlot) : List CalEvent :=
  menu.map (fun s =>
    { summary := s.recipe, description := s.description,
      startDate := s.date, endDate := s.date })

/-- The main block, source lines 307 to 344, with external reads supplied
as inputs: now stands for datetime.now().date(), last for the date of
the last event on the weekmenu calendar, nb for cfg.NB_DAYS_BEFORE, ev1
and ev2 for the label-filtered raw event tuples of the two source
calendars. START_DAY is last plus one and PREV_WEEK is START_DAY minus
seven. When the guard last minus nb is before now passes, the script
unfolds the events, builds the events frame, generates the menu and
inserts it into the calendar; the first component true marks that path,
and the actions list holds every external write in program order.
Otherwise the script prints a stop message and performs no write, the
path marked false with an empty actions list. none models an uncaught
exception aborting the run. -/
def main_run (now nb last : Int) (traditions : List (String × String))
    (free_events : List String) (ks : List Nat) (recipeRows : List RecipeRow)
    (ev1 ev2 : List (Int × Int × String)) : Option (Bool × List Action) :=
  let start_day := last + 1
  let prev_week := start_day - 7
  let eligible := (get_recipes prev_week recipeRows).2
  if last - nb < now then
    match create_events_df start_day (unfold_events_list now ev1)
        (unfold_events_list now ev2) with
    | none => none
    | some tbl =>
      match generate_weekmenu traditions free_events ks tbl eligible with
      | none => none
      | some (menu, _, upds) =>
          some (true,
            upds.map (fun u => Action.sheetUpdate u.1 u.2)
              ++ (add_weekmenu_to_calendar menu).map Action.insertEvent)
  else
    some (false, [])

/-- The row numbers of the menu slots that were filled from the pool;
tradition slots carry no row number and are skipped. -/
def pickedRows (menu : List MenuSlot) : List Nat :=
  menu.filterMap (fun s => s.rowNumber)

/-- The candidate set described by the specification of pick: the
eligible rows of the requested difficulty tier, sorted ascending on
last_date_on_menu with null first, truncated to the first five. Written
from the words of the spec, to be compared with choose_candidates. -/
def specCandidates (difficulty : String) (eligible : List RecipeRow) :
    List RecipeRow :=
  ((eligible.filter (fun r => r.difficulty == difficulty)).insertionSort
    (fun a b => laLe a.last_date_on_menu b.last_date_on_menu = true)).take 5

theorem mem_choose_candidates {d : String} {el : List RecipeRow} {c : RecipeRow}
    (h : c ∈ choose_candidates d el) : c ∈ el ∧ c.difficulty = "difficult" := by
  unfold choose_candidates at h
  have h1 := List.mem_of_mem_take h
  rw [List.mem_insertionSort] at h1
  rw [List.mem_filter] at h1
  exact ⟨h1.1, by simpa using h1.2⟩

theorem choose_recipe_some {d : String} {k : Nat} {el el' : List RecipeRow}
    {c : RecipeRow} (h : choose_recipe d k el = some (c, el')) :
    c ∈ el ∧ c.difficulty = "difficult" ∧
      el' = el.filter (fun r => !(r.row_number == c.row_number)) := by
  simp only [choose_recipe] at h
  cases hg : (choose_candidates d el).get? (k % (choose_candidates d el).length) with
  | none => rw [hg] at h; exact absurd h (by simp)
  | some c0 =>
      rw [hg] at h
      simp only [Option.some.injEq, Prod.mk.injEq] at h
      obtain ⟨hc, hel⟩ := h
      subst hc
      have hmem := mem_choose_candidates (List.get?_mem hg)
      exact ⟨hmem.1, hmem.2, hel.symm⟩

theorem generate_weekmenu_invariant (t : List (String × String)) (f : List String) :
    ∀ (rows : List DayRow) (ks : List Nat) (el : List RecipeRow)
      (menu : List MenuSlot) (el' : List RecipeRow) (upds : List (Nat × Int)),
      generate_weekmenu t f ks rows el = some (menu, el', upds) →
      (pickedRows menu).Nodup ∧
      (∀ rn ∈ pickedRows menu, ∃ r ∈ el, r.row_number = rn) ∧
      (∀ r ∈ el', r ∈ el ∧ r.row_number ∉ pickedRows menu) ∧
      upds = menu.filterMap (fun s => s.rowNumber.map (fun rn => (rn, s.date))) := by
  intro rows
  induction rows with
  | nil =>
      intro ks el menu el' upds h
      simp only [generate_weekmenu, Option.some.injEq, Prod.mk.injEq] at h
      obtain ⟨h1, h2, h3⟩ := h
      subst h1 h2 h3
      refine ⟨by simp [pickedRows], by simp [pickedRows], ?_, by simp [pickedRows]⟩
      intro r hr
      exact ⟨hr, by simp [pickedRows]⟩
  | cons r rest ih =>
      intro ks el menu el' upds h
      simp only [generate_weekmenu] at h
      cases htr : lookupTradition t r.weekday with
      | some name =>
          rw [htr] at h
          rw [Option.map_eq_some'] at h
          obtain ⟨out, hout, heq⟩ := h
          obtain ⟨m0, e0, u0⟩ := out
          simp only [Prod.mk.injEq] at heq
          obtain ⟨h1, h2, h3⟩ := heq
          subst h1 h2 h3
          obtain ⟨ih1, ih2, ih3, ih4⟩ := ih ks el m0 e0 u0 hout
          refine ⟨by simpa [pickedRows] using ih1, ?_, ?_, ?_⟩
          · intro rn hrn
            exact ih2 rn (by simpa [pickedRows] using hrn)
          · intro rr hrr
            obtain ⟨hin, hnot⟩ := ih3 rr hrr
            exact ⟨hin, by simpa [pickedRows] using hnot⟩
          · simpa [pickedRows] using ih4
      | none =>
          rw [htr] at h
          cases ks with
          | nil => simp at h
          | cons k ks' =>
              cases hcr : choose_recipe (requestedTier f r) k el with
              | none => simp only [hcr] at h; exact absurd h (by simp)
              | some p =>
                  obtain ⟨c, el1⟩ := p
                  simp only [hcr] at h
                  rw [Option.map_eq_some'] at h
                  obtain ⟨out, hout, heq⟩ := h
                  obtain ⟨m0, e0, u0⟩ := out
                  simp only [Prod.mk.injEq] at heq
                  obtain ⟨h1, h2, h3⟩ := heq
                  subst h1 h2 h3
                  obtain ⟨hcel, _, hel1⟩ := choose_recipe_some hcr
                  obtain ⟨ih1, ih2, ih3, ih4⟩ := ih ks' el1 m0 e0 u0 hout
                  have hdrop : ∀ rr : RecipeRow, rr ∈ el1 →
                      rr ∈ el ∧ rr.row_number ≠ c.row_number := by
                    intro rr hrr
                    rw [hel1, List.mem_filter] at hrr
                    exact ⟨hrr.1, by simpa using hrr.2⟩
                  have hpick : pickedRows
                      ({ date := r.date, weekday := r.weekday, recipe := c.recipe,
                         description := c.description,
                         rowNumber := some c.row_number } :: m0)
                      = c.row_number :: pickedRows m0 := by simp [pickedRows]
                  refine ⟨?_, ?_, ?_, ?_⟩
                  · rw [hpick]
                    refine List.Nodup.cons ?_ ih1
                    intro hmem
                    obtain ⟨r1, hr1, hr1n⟩ := ih2 c.row_number hmem
                    exact (hdrop r1 hr1).2 hr1n
                  · intro rn hrn
                    rw [hpick] at hrn
                    rcases List.mem_cons.mp hrn with hrn | hrn
                    · exact ⟨c, hcel, hrn.symm⟩
                    · obtain ⟨r1, hr1, hr1n⟩ := ih2 rn hrn
                      exact ⟨r1, (hdrop r1 hr1).1, hr1n⟩
                  · intro rr hrr
                    obtain ⟨hin, hnot⟩ := ih3 rr hrr
                    refine ⟨(hdrop rr hin).1, ?_⟩
                    rw [hpick]
                    intro hmem
                    rcases List.mem_cons.mp hmem with hmem | hmem
                    · exact (hdrop rr hin).2 hmem
                    · exact hnot hmem
                  · simpa [pickedRows] using ih4

/-- C1: the claim states that the difficulty of the chosen recipe equals
the tier requested for the slot, whatever tier was requested. The query
string inside choose_recipe names the literal value difficult and never
reads the difficulty argument, so a pick requested at tier easy returns
a difficult recipe: on a pool holding one easy and one difficult row,
choosing with tier easy yields the difficult row. -/
theorem C1_requested_tier_ignored :
    (choose_recipe "easy" 0
        [⟨2, "A", "dA", "easy", none⟩, ⟨3, "B", "dB", "difficult", none⟩]).map
      (fun p => p.1.difficulty) = some "difficult" := by decide

/-- C5: the claim states that every pick lands in the candidate set built
by tier-filtering the eligible rows, sorting by last_date_on_menu with
null first and taking five. specCandidates writes that set from the
words of the spec; on a pool of one easy and one difficult row with tier
easy requested, the code chooses the difficult row, which is not in the
candidate set the spec describes for tier easy. -/
theorem C5_choice_outside_spec_candidates :
    choose_recipe "easy" 0
        [⟨2, "A", "dA", "easy", none⟩, ⟨3, "B", "dB", "difficult", none⟩]
      = some (⟨3, "B", "dB", "difficult", none⟩,
              [⟨2, "A", "dA", "easy", none⟩]) ∧
    ⟨3, "B", "dB", "difficult", none⟩ ∉ specCandidates "easy"
        [⟨2, "A", "dA", "easy", none⟩, ⟨3, "B", "dB", "difficult", none⟩] := by
  decide

/-- C3: in every completed run no two pool-filled slots share a recipe
row number, and every recipe left in the eligible view after the run has
a row number different from every picked one, so neither a later pick
nor the eligible view can return a recipe picked earlier in the cycle. -/
theorem C3_no_duplicate_picks (t : List (String × String)) (f : List String)
    (ks : List Nat) (rows : List DayRow) (el : List RecipeRow)
    (menu : List MenuSlot) (el' : List RecipeRow) (upds : List (Nat × Int))
    (h : generate_weekmenu t f ks rows el = some (menu, el', upds)) :
    (pickedRows menu).Nodup ∧ ∀ r ∈ el', r.row_number ∉ pickedRows menu := by
  obtain ⟨h1, _, h3, _⟩ := generate_weekmenu_invariant t f rows ks el menu el' upds h
  exact ⟨h1, fun r hr => (h3 r hr).2⟩

theorem C3_witness :
    (pickedRows [⟨100, "Saturday", "R5", "d5", some 5⟩,
                 ⟨101, "Sunday", "R6", "d6", some 6⟩]).Nodup ∧
    ∀ r ∈ ([] : List RecipeRow),
      r.row_number ∉ pickedRows [⟨100, "Saturday", "R5", "d5", some 5⟩,
                                 ⟨101, "Sunday", "R6", "d6", some 6⟩] :=
  C3_no_duplicate_picks [] ["FREE"] [0, 0]
    [⟨100, "Saturday", none, none⟩, ⟨101, "Sunday", none, none⟩]
    [⟨5, "R5", "d5", "difficult", none⟩, ⟨6, "R6", "d6", "difficult", none⟩]
    [⟨100, "Saturday", "R5", "d5", some 5⟩, ⟨101, "Sunday", "R6", "d6", some 6⟩]
    [] [(5, 100), (6, 101)] (by decide)

/-- C9 counterexample: the claim states that after each selection the
chosen recipe's last_used_date is set to the slot date in the in-memory
recipe pool as well as in the backing store. In a one-slot Saturday run
the pick of row 5 for date 100 emits the sheet update, yet no in-memory
recipe record afterwards carries last_date_on_menu 100: the eligible
frame after the run is empty, because the row was dropped rather than
re-dated, and the full frame kept by get_recipes still holds the
original none, since no operation of the script assigns that column. -/
theorem C9_in_memory_date_not_set :
    generate_weekmenu [] [] [0] [⟨100, "Saturday", none, none⟩]
        [⟨5, "R5", "d5", "difficult", none⟩]
      = some ([⟨100, "Saturday", "R5", "d5", some 5⟩], [], [(5, 100)]) ∧
    (get_recipes 94 [⟨5, "R5", "d5", "difficult", none⟩]).1
      = [⟨5, "R5", "d5", "difficult", none⟩] := by decide

/-- C9 amended: immediately after each non-tradition selection, per slot
and in slot order, the slot date is emitted as the sheet update for the
chosen row, and the chosen recipe is removed from the in-memory eligible
view for the rest of the cycle; the in-memory last_date_on_menu fields
are not modified, every row still in the eligible view afterwards being
an unchanged row of the input frame. -/
theorem C9_per_slot_persistence (t : List (String × String)) (f : List String)
    (ks : List Nat) (rows : List DayRow) (el : List RecipeRow)
    (menu : List MenuSlot) (el' : List RecipeRow) (upds : List (Nat × Int))
    (h : generate_weekmenu t f ks rows el = some (menu, el', upds)) :
    upds = menu.filterMap (fun s => s.rowNumber.map (fun rn => (rn, s.date))) ∧
    (∀ r ∈ el', r ∈ el) ∧ (∀ r ∈ el', r.row_number ∉ pickedRows menu) := by
  obtain ⟨_, _, h3, h4⟩ := generate_weekmenu_invariant t f rows ks el menu el' upds h
  exact ⟨h4, fun r hr => (h3 r hr).1, fun r hr => (h3 r hr).2⟩

theorem C9_witness :
    ([((5 : Nat), (100 : Int))] =
      List.filterMap (fun s => s.rowNumber.map (fun rn => (rn, s.date)))
        [(⟨100, "Saturday", "R5", "d5", some 5⟩ : MenuSlot)]) ∧
    (∀ r ∈ ([] : List RecipeRow),
      r ∈ [(⟨5, "R5", "d5", "difficult", none⟩ : RecipeRow)]) ∧
    (∀ r ∈ ([] : List RecipeRow),
      r.row_number ∉ pickedRows [(⟨100, "Saturday", "R5", "d5", some 5⟩ : MenuSlot)]) :=
  C9_per_slot_persistence [] ["FREE"] [0] [⟨100, "Saturday", none, none⟩]
    [⟨5, "R5", "d5", "difficult", none⟩]
    [⟨100, "Saturday", "R5", "d5", some 5⟩] [] [(5, 100)] (by decide)

/-- C4: the eligible view computed by get_recipes holds exactly the rows
whose last_date_on_menu is null or strictly earlier than the planning
date minus seven days, and a row used within the last seven days is
never in the view. -/
theorem C4_eligible_membership (as_of : Int) (rows : List RecipeRow)
    (r : RecipeRow) :
    (r ∈ (get_recipes (as_of - 7) rows).2 ↔
      r ∈ rows ∧ (r.last_date_on_menu = none ∨
        ∃ d, r.last_date_on_menu = some d ∧ d < as_of - 7)) ∧
    (∀ d, r.last_date_on_menu = some d → as_of - 7 ≤ d →
      r ∉ (get_recipes (as_of - 7) rows).2) := by
  have hmain : r ∈ (get_recipes (as_of - 7) rows).2 ↔
      r ∈ rows ∧ (r.last_date_on_menu = none ∨
        ∃ d, r.last_date_on_menu = some d ∧ d < as_of - 7) := by
    simp only [get_recipes, List.mem_filter]
    constructor
    · rintro ⟨hm, hp⟩
      refine ⟨hm, ?_⟩
      cases hld : r.last_date_on_menu with
      | none => exact Or.inl rfl
      | some d =>
          rw [hld] at hp
          exact Or.inr ⟨d, rfl, by simpa using hp⟩
    · rintro ⟨hm, hp⟩
      refine ⟨hm, ?_⟩
      rcases hp with h0 | ⟨d, hd, hlt⟩
      · simp [h0]
      · simp [hd, hlt]
  refine ⟨hmain, ?_⟩
  intro d hd hle hmem
  rcases (hmain.mp hmem).2 with h0 | ⟨d', hd', hlt⟩
  · rw [h0] at hd; exact Option.noConfusion hd
  · rw [hd] at hd'
    have hdd : d = d' := by injection hd'
    rw [hdd] at hle
    exact absurd hlt (not_lt.mpr hle)

theorem C4_witness :
    ((⟨2, "C", "dC", "easy", none⟩ : RecipeRow) ∈
      (get_recipes ((10 : Int) - 7)
        [⟨1, "B", "dB", "easy", some 5⟩, ⟨2, "C", "dC", "easy", none⟩]).2) ∧
    ((⟨1, "B", "dB", "easy", some 5⟩ : RecipeRow) ∉
      (get_recipes ((10 : Int) - 7)
        [⟨1, "B", "dB", "easy", some 5⟩, ⟨2, "C", "dC", "easy", none⟩]).2) :=
  ⟨(C4_eligible_membership 10
      [⟨1, "B", "dB", "easy", some 5⟩, ⟨2, "C", "dC", "easy", none⟩]
      ⟨2, "C", "dC", "easy", none⟩).1.mpr ⟨by decide, Or.inl rfl⟩,
   (C4_eligible_membership 10
      [⟨1, "B", "dB", "easy", some 5⟩, ⟨2, "C", "dC", "easy", none⟩]
      ⟨1, "B", "dB", "easy", some 5⟩).2 5 rfl (by norm_num)⟩

theorem cellInFree_iff (fe : List String) (c : Option String) :
    cellInFree fe c = true ↔ ∃ l ∈ fe, c = some l := by
  cases c with
  | none => simp [cellInFree]
  | some a =>
      constructor
      · intro hb
        exact ⟨a, by simpa [cellInFree] using hb, rfl⟩
      · rintro ⟨l, hl, he⟩
        have hal : a = l := by injection he
        subst hal
        simpa [cellInFree] using hl

theorem cellIsNull_iff (c : Option String) : cellIsNull c = true ↔ c = none := by
  cases c <;> simp [cellIsNull]

/-- C2: processing one slot of the week in generate_weekmenu: a weekday
found in the traditions mapping gets the tradition recipe name with an
empty description and the slot consumes nothing, neither the random
stream nor the eligible frame nor a sheet write; for any other weekday
the tier handed to choose_recipe is difficult on Saturday and Sunday,
medium when either event cell holds a free label or either event cell is
null, and easy otherwise. -/
theorem C2_slot_classification (traditions : List (String × String))
    (free_events : List String) (ks : List Nat) (rest : List DayRow)
    (eligible : List RecipeRow) (r : DayRow) :
    (∀ name, lookupTradition traditions r.weekday = some name →
      generate_weekmenu traditions free_events ks (r :: rest) eligible =
        (generate_weekmenu traditions free_events ks rest eligible).map
          (fun out =>
            ({ date := r.date, weekday := r.weekday, recipe := name,
               description := "", rowNumber := none } :: out.1,
             out.2.1, out.2.2))) ∧
    (lookupTradition traditions r.weekday = none →
      requestedTier free_events r =
        if r.weekday = "Saturday" ∨ r.weekday = "Sunday" then "difficult"
        else if (∃ l ∈ free_events, r.events_cal_1 = some l) ∨
            (∃ l ∈ free_events, r.events_cal_2 = some l) ∨
            r.events_cal_1 = none ∨ r.events_cal_2 = none then "medium"
        else "easy") := by
  constructor
  · intro name hname
    simp only [generate_weekmenu, hname]
  · intro _
    have h1 : ((r.weekday == "Saturday" || r.weekday == "Sunday") = true) ↔
        (r.weekday = "Saturday" ∨ r.weekday = "Sunday") := by simp
    have h2 : ((cellInFree free_events r.events_cal_1 ||
          cellInFree free_events r.events_cal_2 ||
          cellIsNull r.events_cal_1 || cellIsNull r.events_cal_2) = true) ↔
        ((∃ l ∈ free_events, r.events_cal_1 = some l) ∨
          (∃ l ∈ free_events, r.events_cal_2 = some l) ∨
          r.events_cal_1 = none ∨ r.events_cal_2 = none) := by
      rw [Bool.or_eq_true, Bool.or_eq_true, Bool.or_eq_true,
        cellInFree_iff, cellInFree_iff, cellIsNull_iff, cellIsNull_iff]
      simp only [or_assoc]
    simp only [requestedTier]
    by_cases hws : r.weekday = "Saturday" ∨ r.weekday = "Sunday"
    · rw [if_pos (h1.mpr hws), if_pos hws]
    · rw [if_neg (fun hb => hws (h1.mp hb)), if_neg hws]
      by_cases hfr : (∃ l ∈ free_events, r.events_cal_1 = some l) ∨
          (∃ l ∈ free_events, r.events_cal_2 = some l) ∨
          r.events_cal_1 = none ∨ r.events_cal_2 = none
      · rw [if_pos (h2.mpr hfr), if_pos hfr]
      · rw [if_neg (fun hb => hfr (h2.mp hb)), if_neg hfr]

theorem C2_witness :
    (generate_weekmenu [("Monday", "Spaghetti")] [] [] [⟨104, "Monday", none, none⟩] [] =
      (generate_weekmenu [("Monday", "Spaghetti")] [] [] [] ([] : List RecipeRow)).map
        (fun out =>
          ({ date := 104, weekday := "Monday", recipe := "Spaghetti",
             description := "", rowNumber := none } :: out.1,
           out.2.1, out.2.2))) ∧
    requestedTier [] ⟨100, "Saturday", none, none⟩ = "difficult" := by
  constructor
  · exact (C2_slot_classification [("Monday", "Spaghetti")] [] [] [] []
      ⟨104, "Monday", none, none⟩).1 "Spaghetti" (by decide)
  · have h := (C2_slot_classification [("Monday", "Spaghetti")] [] [] [] []
      ⟨100, "Saturday", none, none⟩).2 (by decide)
    simpa using h

/-- C8: when the last date of the previous plan is still at least the
lead time ahead of now, the guard of the main block fails and the script
takes the early-exit path: the outcome is the normal stop message with
an empty action list, so no calendar insert and no sheet update is
performed. -/
theorem C8_early_exit_no_writes (now nb last : Int)
    (traditions : List (String × String)) (free_events : List String)
    (ks : List Nat) (recipeRows : List RecipeRow)
    (ev1 ev2 : List (Int × Int × String))
    (h : now + nb ≤ last) :
    main_run now nb last traditions free_events ks recipeRows ev1 ev2
      = some (false, []) := by
  simp only [main_run]
  rw [if_neg (by linarith : ¬ (last - nb < now))]

theorem C8_witness :
    (0 : Int) + 2 ≤ 3 ∧
    main_run 0 2 3 [] [] [] [] [] [] = some (false, []) :=
  ⟨by norm_num, C8_early_exit_no_writes 0 2 3 [] [] [] [] [] [] (by norm_num)⟩

/-- C10: every event inserted by add_weekmenu_to_calendar for a slot has
its end date equal to its start date, both being the slot date, and in
particular not the exclusive-end convention of start plus one day; each
menu slot yields exactly one such event. -/
theorem C10_insert_end_equals_start (menu : List MenuSlot) :
    (add_weekmenu_to_calendar menu).length = menu.length ∧
    (∀ e ∈ add_weekmenu_to_calendar menu,
      e.endDate = e.startDate ∧ e.endDate ≠ e.startDate + 1) ∧
    (∀ s ∈ menu,
      ({ summary := s.recipe, description := s.description,
         startDate := s.date, endDate := s.date } : CalEvent)
        ∈ add_weekmenu_to_calendar menu) := by
  refine ⟨by simp [add_weekmenu_to_calendar], ?_, ?_⟩
  · intro e he
    rw [add_weekmenu_to_calendar, List.mem_map] at he
    obtain ⟨s, _, rfl⟩ := he
    exact ⟨rfl, by intro hc; exact absurd hc (by linarith [lt_irrefl s.date])⟩
  · intro s hs
    rw [add_weekmenu_to_calendar]
    exact List.mem_map_of_mem _ hs

theorem C10_witness :
    (add_weekmenu_to_calendar [⟨100, "Saturday", "R", "d", some 5⟩]).length =
      [(⟨100, "Saturday", "R", "d", some 5⟩ : MenuSlot)].length ∧
    (⟨"R", "d", 100, 100⟩ : CalEvent) ∈
      add_weekmenu_to_calendar [⟨100, "Saturday", "R", "d", some 5⟩] :=
  ⟨(C10_insert_end_equals_start [⟨100, "Saturday", "R", "d", some 5⟩]).1,
   (C10_insert_end_equals_start [⟨100, "Saturday", "R", "d", some 5⟩]).2.2
     ⟨100, "Saturday", "R", "d", some 5⟩ (by decide)⟩

theorem unfold_events_list_eq_bind (today : Int)
    (evs : List (Int × Int × String)) :
    unfold_events_list today evs =
      evs.bind (fun e => unfold_events_list today [e]) := by
  simp only [unfold_events_list, List.cons_bind, List.nil_bind, List.append_nil]

/-- C6: the per-event behaviour of unfold_events_list. The whole output
is the concatenation of the contributions of the single events; an event
whose span exceeds one day contributes exactly one dated entry per
calendar day it covers under the exclusive-end convention, kept only
inside the seven-day window starting at today, with no day repeated; any
other event contributes exactly the single entry at its start date. -/
theorem C6_event_expansion (today s en : Int) (lab l : String) (d : Int)
    (evs : List (Int × Int × String)) :
    (unfold_events_list today evs =
      evs.bind (fun e => unfold_events_list today [e])) ∧
    ((d, l) ∈ unfold_events_list today [(s, en, lab)] ↔
      l = lab ∧ ((en - s > 1 ∧ s ≤ d ∧ d < en ∧ today ≤ d ∧ d ≤ today + 6) ∨
        (en - s ≤ 1 ∧ d = s))) ∧
    ((unfold_events_list today [(s, en, lab)]).map Prod.fst).Nodup := by
  refine ⟨unfold_events_list_eq_bind today evs, ?_, ?_⟩
  · simp only [unfold_events_list, List.cons_bind, List.nil_bind, List.append_nil]
    by_cases hs : en - s > 1
    · rw [if_pos hs, List.mem_filterMap]
      constructor
      · rintro ⟨a, ha, hg⟩
        rw [List.mem_range] at ha
        by_cases hw : today ≤ s + (a : Int) ∧ s + (a : Int) ≤ today + 6
        · rw [if_pos hw] at hg
          injection hg with hg
          rw [Prod.mk.injEq] at hg
          obtain ⟨hd, hl⟩ := hg
          refine ⟨hl.symm, Or.inl ⟨hs, ?_, ?_, ?_, ?_⟩⟩ <;> omega
        · rw [if_neg hw] at hg
          exact absurd hg (by simp)
      · rintro ⟨rfl, hcase⟩
        rcases hcase with ⟨hgt, hsd, hden, hw1, hw2⟩ | ⟨hle, _⟩
        · refine ⟨(d - s).toNat, ?_, ?_⟩
          · rw [List.mem_range]
            omega
          · rw [if_pos (by constructor <;> omega)]
            rw [show s + (((d - s).toNat : Nat) : Int) = d from by omega]
        · exact absurd hle (by omega)
    · rw [if_neg hs]
      simp only [List.mem_singleton, Prod.mk.injEq]
      constructor
      · rintro ⟨rfl, rfl⟩
        exact ⟨rfl, Or.inr ⟨by omega, rfl⟩⟩
      · rintro ⟨rfl, hcase⟩
        rcases hcase with ⟨hgt, _⟩ | ⟨_, rfl⟩
        · omega
        · exact ⟨rfl, rfl⟩
  · simp only [unfold_events_list, List.cons_bind, List.nil_bind, List.append_nil]
    by_cases hs : en - s > 1
    · rw [if_pos hs, List.map_filterMap]
      refine List.Nodup.filterMap ?_ (List.nodup_range _)
      intro a a' b hb hb'
      have hval : ∀ (x : Nat), b ∈ Option.map Prod.fst
          (if today ≤ s + (x : Int) ∧ s + (x : Int) ≤ today + 6
            then some ((s + (x : Int), lab))
            else none) → b = s + (x : Int) := by
        intro x hx
        split at hx
        · simpa [eq_comm] using hx
        · exact absurd hx (by simp)
      have h1 := hval a hb
      have h2 := hval a' hb'
      omega
    · rw [if_neg hs]
      simp

/-- C7: whenever create_events_df succeeds, the produced day table has
exactly seven rows, their dates are the seven consecutive calendar days
starting at START_DAY in ascending order, every row carries the weekday
name derived from its date, and a row whose date occurs in neither of
the two per-day event lists carries a null label for that calendar. -/
theorem C7_seven_consecutive_rows (start_day : Int) (l1 l2 : List (Int × String))
    (tbl : List DayRow) (h : create_events_df start_day l1 l2 = some tbl) :
    tbl.length = 7 ∧
    tbl.map (fun row => row.date) =
      [start_day, start_day + 1, start_day + 2, start_day + 3,
       start_day + 4, start_day + 5, start_day + 6] ∧
    List.Chain' (· < ·) (tbl.map (fun row => row.date)) ∧
    (∀ row ∈ tbl, row.weekday = weekdayName row.date ∧
      ((∀ p ∈ l1, p.1 ≠ row.date) → row.events_cal_1 = none) ∧
      ((∀ p ∈ l2, p.1 ≠ row.date) → row.events_cal_2 = none)) := by
  rw [create_events_df] at h
  split at h
  case isFalse => exact absurd h (by simp)
  case isTrue =>
    have htbl : tbl = (List.range 7).map (fun (i : Nat) =>
        ({ date := start_day + (i : Int)
           weekday := weekdayName (start_day + (i : Int))
           events_cal_1 := lookupDate l1 (start_day + (i : Int))
           events_cal_2 := lookupDate l2 (start_day + (i : Int)) } : DayRow)) := by
      injection h with h
      exact h.symm
    subst htbl
    have hrange : List.range 7 = [0, 1, 2, 3, 4, 5, 6] := rfl
    refine ⟨by simp, ?_, ?_, ?_⟩
    · rw [hrange]
      simp only [List.map_cons, List.map_nil]
      norm_num
    · rw [hrange]
      simp only [List.map_cons, List.map_nil, List.chain'_cons, List.chain'_singleton]
      norm_num
    · intro row hrow
      rw [List.mem_map] at hrow
      obtain ⟨i, _, rfl⟩ := hrow
      refine ⟨rfl, ?_, ?_⟩
      · intro hnone
        simp only [lookupDate]
        rw [List.find?_eq_none.mpr ?_]
        · rfl
        · intro p hp
          simpa using hnone p hp
      · intro hnone
        simp only [lookupDate]
        rw [List.find?_eq_none.mpr ?_]
        · rfl
        · intro p hp
          simpa using hnone p hp

theorem C7_witness :
    ([(⟨10, "Sunday", none, none⟩ : DayRow), ⟨11, "Monday", some "X", none⟩,
      ⟨12, "Tuesday", none, none⟩, ⟨13, "Wednesday", none, none⟩,
      ⟨14, "Thursday", none, none⟩, ⟨15, "Friday", none, none⟩,
      ⟨16, "Saturday", none, none⟩] : List DayRow).length = 7 ∧
    ([(⟨10, "Sunday", none, none⟩ : DayRow), ⟨11, "Monday", some "X", none⟩,
      ⟨12, "Tuesday", none, none⟩, ⟨13, "Wednesday", none, none⟩,
      ⟨14, "Thursday", none, none⟩, ⟨15, "Friday", none, none⟩,
      ⟨16, "Saturday", none, none⟩] : List DayRow).map (fun row => row.date) =
      [10, 10 + 1, 10 + 2, 10 + 3, 10 + 4, 10 + 5, 10 + 6] :=
  ⟨(C7_seven_consecutive_rows 10 [(11, "X")] []
      [⟨10, "Sunday", none, none⟩, ⟨11, "Monday", some "X", none⟩,
       ⟨12, "Tuesday", none, none⟩, ⟨13, "Wednesday", none, none⟩,
       ⟨14, "Thursday", none, none⟩, ⟨15, "Friday", none, none⟩,
       ⟨16, "Saturday", none, none⟩] (by decide)).1,
   (C7_seven_consecutive_rows 10 [(11, "X")] []
      [⟨10, "Sunday", none, none⟩, ⟨11, "Monday", some "X", none⟩,
       ⟨12, "Tuesday", none, none⟩, ⟨13, "Wednesday", none, none⟩,
       ⟨14, "Thursday", none, none⟩, ⟨15, "Friday", none, none⟩,
       ⟨16, "Saturday", none, none⟩] (by decide)).2.1⟩

end Weekmenu
